import Mathlib

/-!
Shallow embedding of the BlogPosts backend (Express + Mongoose blog platform).

Sources embedded:
  * `backend/models/Post.js` (post schema: title trimmed + required, content
    required, authorId required, timestamps) — `src/unnamed/part_000`.
  * `backend/middleware/authorize.js` (ownership guard) — `src/unnamed/part_000`.
  * `backend/controllers/postController.js` — `src/unnamed/part_001`.
  * `backend/services/authService.js` (register / login) and
    `backend/services/postService.js` and `backend/routes/postRoutes.js`
    — `src/backend/routes/postRoutes.js`.
  * frontend zod `postSchema` — `src/frontend/src/components/PostView.jsx`.

JavaScript strings are Lean `String`; Mongo ObjectIds are `Nat`; the wall
clock is a `Nat` counter held in the store and advanced past every write, so
successive writes receive strictly increasing timestamps.  Thrown JS `Error`s
are `Except String` values carrying the thrown message.  The store records in
`fetchCount` how many single-document reads (`findById`,
`findByIdAndUpdate`, `findByIdAndDelete`) have been issued against it.
-/

/-- Trimmable whitespace, as in JavaScript `String.prototype.trim` /
mongoose `trim: true` (restricted to the whitespace actually occurring in
this development). -/
def isSpaceChar (c : Char) : Bool :=
  c = ' ' || c = '\t' || c = '\n' || c = '\r'

/-- Trim whitespace from both ends of a character list. -/
def trimChars (l : List Char) : List Char :=
  ((l.dropWhile isSpaceChar).reverse.dropWhile isSpaceChar).reverse

/-- JavaScript `s.trim()` / the mongoose `trim: true` setter on `title`. -/
def trimStr (s : String) : String :=
  ⟨trimChars s.data⟩

/-- Drop characters up to and including the first `>`; `none` when no `>`
occurs.  Helper for the tag-stripping regex. -/
def dropThroughGt : List Char → Option (List Char)
  | [] => none
  | c :: cs => if c = '>' then some cs else dropThroughGt cs

/-- Fuel-indexed worker for the tag-stripping replacement; each step consumes
one unit of fuel and strictly shortens the input, so `l.length` fuel always
suffices. -/
def stripTagsFuel : Nat → List Char → List Char
  | 0, l => l
  | _ + 1, [] => []
  | f + 1, c :: cs =>
    if c = '<' then
      match dropThroughGt cs with
      | some rest => stripTagsFuel f rest
      | none => c :: cs
    else c :: stripTagsFuel f cs

/-- The global replacement `content.replace(/<[^>]*>/g, '')` from the
frontend zod schema: a `<` followed (possibly after non-`>` characters) by a
`>` is removed together with everything between; a `<` never followed by a
`>` matches nothing and is kept. -/
def stripTags (l : List Char) : List Char :=
  stripTagsFuel l.length l

/-- Tag stripping lifted to `String`. -/
def stripTagsStr (s : String) : String :=
  ⟨stripTags s.data⟩

/-- A stored user document (mongoose `User` model).  The password field holds
the bcrypt hash, never the plaintext. -/
structure UserDoc where
  id : Nat
  name : String
  email : String
  passwordHash : String
deriving Repr, DecidableEq

/-- The outward payload built by `authService.register` / `authService.login`:
exactly `{ id, name, email, token }`. -/
structure AuthData where
  id : Nat
  name : String
  email : String
  token : String
deriving Repr, DecidableEq

/-- The users collection plus the id allocator. -/
structure UserStore where
  users : List UserDoc
  nextId : Nat
deriving Repr, DecidableEq

/-- Modelled from the spec: the `User` model's password hashing
(`bcryptjs` pre-save hook, not under `src/`) — a salted one-way function;
modelled as an injective tagging of the plaintext. -/
def hashPassword (pw : String) : String :=
  "bcrypt$" ++ pw

/-- Modelled from the spec: `user.comparePassword` (User model, not under
`src/`) — compares the supplied plaintext against the stored hash. -/
def comparePassword (pw storedHash : String) : Bool :=
  hashPassword pw == storedHash

/-- Modelled from the spec: `generateToken` (`backend/utils/jwt.js`, not
under `src/`) — mints a signed token whose subject is the user identity. -/
def generateToken (uid : Nat) : String :=
  "jwt$" ++ toString uid

/-- `User.findOne({ email })`. -/
def findUserByEmail : List UserDoc → String → Option UserDoc
  | [], _ => none
  | u :: us, e => if u.email = e then some u else findUserByEmail us e

/-- `User.findById(uid)` (used by `populate` to resolve the author). -/
def findUserById : List UserDoc → Nat → Option UserDoc
  | [], _ => none
  | u :: us, uid => if u.id = uid then some u else findUserById us uid

namespace authService

/-- `authService.register`: reject when a user with the email already exists
(`throw new Error('User already exists with this email')`), otherwise create
the user, mint a token and return `{ id, name, email, token }`.  On failure
the store is unchanged (the `throw` precedes `User.create`). -/
def register (s : UserStore) (name email password : String) :
    Except String AuthData × UserStore :=
  match findUserByEmail s.users email with
  | some _ => (Except.error "User already exists with this email", s)
  | none =>
    let u : UserDoc := ⟨s.nextId, name, email, hashPassword password⟩
    let tok := generateToken u.id
    (Except.ok ⟨u.id, u.name, u.email, tok⟩, ⟨s.users ++ [u], s.nextId + 1⟩)

/-- `authService.login`: look the user up by email; a missing user and a
failed `comparePassword` both `throw new Error('Invalid credentials')`. -/
def login (s : UserStore) (email password : String) : Except String AuthData :=
  match findUserByEmail s.users email with
  | none => Except.error "Invalid credentials"
  | some u =>
    if comparePassword password u.passwordHash then
      Except.ok ⟨u.id, u.name, u.email, generateToken u.id⟩
    else
      Except.error "Invalid credentials"

end authService

/-- An HTTP response as produced by the controllers: status code plus the
`{ success, message }` envelope. -/
structure HttpResponse where
  status : Nat
  success : Bool
  message : Option String
deriving Repr, DecidableEq

/-- Modelled from the spec: the auth controller (not under `src/`) maps a
`register` outcome to HTTP — 201 on success, 400 (DuplicateEmail /
validation) on a thrown service error, per the spec's REST table. -/
def registerController (r : Except String AuthData) : HttpResponse :=
  match r with
  | Except.ok _ => ⟨201, true, some "User registered successfully"⟩
  | Except.error m => ⟨400, false, some m⟩

/-- Modelled from the spec: the auth controller (not under `src/`) maps a
`login` outcome to HTTP — 200 on success, 401 InvalidCredentials on a thrown
service error, per the spec's REST table. -/
def loginController (r : Except String AuthData) : HttpResponse :=
  match r with
  | Except.ok _ => ⟨200, true, some "Login successful"⟩
  | Except.error m => ⟨401, false, some m⟩

/-- A stored post document (mongoose `Post` model, `timestamps: true`). -/
structure PostDoc where
  id : Nat
  title : String
  content : String
  authorId : Nat
  createdAt : Nat
  updatedAt : Nat
deriving Repr, DecidableEq

/-- The posts collection, the id allocator, the wall clock (advanced past
every write so later writes get strictly larger timestamps), and a count of
the single-document reads issued so far. -/
structure PostStore where
  posts : List PostDoc
  nextId : Nat
  now : Nat
  fetchCount : Nat
deriving Repr, DecidableEq

/-- Linear scan behind `findById` on the posts collection. -/
def findPost : List PostDoc → Nat → Option PostDoc
  | [], _ => none
  | p :: ps, pid => if p.id = pid then some p else findPost ps pid

/-- `Post.findById(id)`: one single-document read against the store. -/
def findPostById (s : PostStore) (pid : Nat) : Option PostDoc × PostStore :=
  (findPost s.posts pid, { s with fetchCount := s.fetchCount + 1 })

/-- The author subdocument produced by `.populate('authorId', 'name email')`:
the selected fields, and nothing else, of the referenced user. -/
structure AuthorView where
  name : String
  email : String
deriving Repr, DecidableEq

/-- A post as serialized outward by the post service, with the author
reference resolved by `.populate('authorId', 'name email')`. -/
structure PopulatedPost where
  id : Nat
  title : String
  content : String
  author : Option AuthorView
  createdAt : Nat
  updatedAt : Nat
deriving Repr, DecidableEq

/-- Resolve `p.authorId` against the users collection, selecting name and
email. -/
def populatePost (users : List UserDoc) (p : PostDoc) : PopulatedPost :=
  { id := p.id
    title := p.title
    content := p.content
    author := (findUserById users p.authorId).map fun u => ⟨u.name, u.email⟩
    createdAt := p.createdAt
    updatedAt := p.updatedAt }

/-- The Mongo sort key `{ createdAt: -1 }`: newest first. -/
def createdDesc (a b : PostDoc) : Prop :=
  b.createdAt ≤ a.createdAt

instance : DecidableRel createdDesc := fun a b => Nat.decLe b.createdAt a.createdAt

instance : IsTotal PostDoc createdDesc :=
  ⟨fun a b => (Nat.le_total a.createdAt b.createdAt).symm⟩

instance : IsTrans PostDoc createdDesc :=
  ⟨fun _ _ _ h1 h2 => Nat.le_trans h2 h1⟩

/-- `Post.find().sort({ createdAt: -1 })`, modelled by insertion sort under
the newest-first key. -/
def sortPostsDesc (l : List PostDoc) : List PostDoc :=
  List.insertionSort createdDesc l

/-- Validation of the `Post` schema, as mongoose runs it on create and (with
`runValidators: true`) on update: the `trim: true` setter is applied to
`title`, then `required` demands a non-empty `title` and a non-empty
`content` (mongoose `required` fails on the empty string). -/
def validatePostFields (title content : String) : Except String (String × String) :=
  let t := trimStr title
  if t = "" then Except.error "Please provide a title"
  else if content = "" then Except.error "Please provide content"
  else Except.ok (t, content)

namespace postService

/-- `postService.getAllPosts`: `Post.find().populate('authorId', 'name email').sort({ createdAt: -1 })`. -/
def getAllPosts (users : List UserDoc) (s : PostStore) : List PopulatedPost :=
  (sortPostsDesc s.posts).map (populatePost users)

/-- `postService.getPostById`: `findById` + populate, throwing
`'Post not found'` when absent. -/
def getPostById (users : List UserDoc) (s : PostStore) (pid : Nat) :
    Except String PopulatedPost × PostStore :=
  let (post?, s1) := findPostById s pid
  match post? with
  | none => (Except.error "Post not found", s1)
  | some p => (Except.ok (populatePost users p), s1)

/-- `postService.createPost`: `Post.create({ title, content, authorId })`.
Validation (title trim + required, content required) runs before the insert;
`timestamps: true` stamps `createdAt = updatedAt = now`. -/
def createPost (s : PostStore) (title content : String) (authorId : Nat) :
    Except String PostDoc × PostStore :=
  match validatePostFields title content with
  | Except.error m => (Except.error m, s)
  | Except.ok (t, c) =>
    let p : PostDoc := ⟨s.nextId, t, c, authorId, s.now, s.now⟩
    (Except.ok p,
     { s with posts := s.posts ++ [p], nextId := s.nextId + 1, now := s.now + 1 })

/-- `postService.updatePost`: `findByIdAndUpdate(id, { title, content },
{ new: true, runValidators: true })`.  Validators (and the `trim` setter)
run before the query executes; the query itself is one single-document read
that rewrites only `title`, `content` and (via `timestamps: true`)
`updatedAt`; a missing document throws `'Post not found'`. -/
def updatePost (s : PostStore) (pid : Nat) (title content : String) :
    Except String PostDoc × PostStore :=
  match validatePostFields title content with
  | Except.error m => (Except.error m, s)
  | Except.ok (t, c) =>
    let (post?, s1) := findPostById s pid
    match post? with
    | none => (Except.error "Post not found", s1)
    | some p =>
      let p' : PostDoc := { p with title := t, content := c, updatedAt := s1.now }
      (Except.ok p',
       { s1 with
         posts := s1.posts.map fun q =>
           if q.id = pid then { q with title := t, content := c, updatedAt := s1.now }
           else q
         now := s1.now + 1 })

/-- `postService.deletePost`: `findByIdAndDelete(id)` — one single-document
read, removing the document when present, throwing `'Post not found'`
otherwise. -/
def deletePost (s : PostStore) (pid : Nat) : Except String PostDoc × PostStore :=
  let (post?, s1) := findPostById s pid
  match post? with
  | none => (Except.error "Post not found", s1)
  | some p =>
    (Except.ok p, { s1 with posts := s1.posts.filter fun q => ¬ q.id = pid })

end postService

/-- Outcome of the `authorize` middleware: either an early error response or
pass-through with the loaded post attached to the request (`req.post`). -/
inductive GateResult where
  | notFound
  | forbidden
  | pass (post : PostDoc)
deriving Repr, DecidableEq

/-- `backend/middleware/authorize.js`: load the post by the path id; 404 when
absent (checked before ownership); 403 when `post.authorId !== req.user._id`;
otherwise attach the post and call `next()`. -/
def authorize (s : PostStore) (resourceId callerId : Nat) : GateResult × PostStore :=
  let (post?, s1) := findPostById s resourceId
  match post? with
  | none => (GateResult.notFound, s1)
  | some post =>
    if ¬ post.authorId = callerId then (GateResult.forbidden, s1)
    else (GateResult.pass post, s1)

namespace postController

/-- `postController.createPost`: reject falsy title/content with 400, then
call the service; a thrown service error is also answered with 400. -/
def createPost (s : PostStore) (callerId : Nat) (title content : String) :
    HttpResponse × PostStore :=
  if title = "" ∨ content = "" then
    (⟨400, false, some "Please provide title and content"⟩, s)
  else
    match postService.createPost s title content callerId with
    | (Except.ok _, s') => (⟨201, true, some "Post created successfully"⟩, s')
    | (Except.error m, s') => (⟨400, false, some m⟩, s')

/-- `postController.updatePost`: reject falsy title/content with 400, then
call `postService.updatePost(req.params.id, { title, content })` — note it
uses the path id, not the `req.post` attached by the guard; every thrown
service error is answered with 404. -/
def updatePost (s : PostStore) (pid : Nat) (title content : String) :
    HttpResponse × PostStore :=
  if title = "" ∨ content = "" then
    (⟨400, false, some "Please provide title and content"⟩, s)
  else
    match postService.updatePost s pid title content with
    | (Except.ok _, s') => (⟨200, true, some "Post updated successfully"⟩, s')
    | (Except.error m, s') => (⟨404, false, some m⟩, s')

/-- `postController.deletePost`: call
`postService.deletePost(req.params.id)`; a thrown service error is answered
with 404. -/
def deletePost (s : PostStore) (pid : Nat) : HttpResponse × PostStore :=
  match postService.deletePost s pid with
  | (Except.ok _, s') => (⟨200, true, some "Post deleted successfully"⟩, s')
  | (Except.error m, s') => (⟨404, false, some m⟩, s')

end postController

/-- Route `PUT /posts/:id` = `authenticate, authorize, postController.updatePost`
(`backend/routes/postRoutes.js`); `authenticate` has already resolved
`callerId`.  The guard's early responses carry the middleware's messages. -/
def putPostRoute (s : PostStore) (pid callerId : Nat) (title content : String) :
    HttpResponse × PostStore :=
  match authorize s pid callerId with
  | (GateResult.notFound, s1) => (⟨404, false, some "Post not found"⟩, s1)
  | (GateResult.forbidden, s1) =>
    (⟨403, false, some "Not authorized to perform this action"⟩, s1)
  | (GateResult.pass _, s1) => postController.updatePost s1 pid title content

/-- Route `DELETE /posts/:id` = `authenticate, authorize, postController.deletePost`. -/
def deletePostRoute (s : PostStore) (pid callerId : Nat) : HttpResponse × PostStore :=
  match authorize s pid callerId with
  | (GateResult.notFound, s1) => (⟨404, false, some "Post not found"⟩, s1)
  | (GateResult.forbidden, s1) =>
    (⟨403, false, some "Not authorized to perform this action"⟩, s1)
  | (GateResult.pass _, s1) => postController.deletePost s1 pid

/-- Route `POST /posts` = `authenticate, postController.createPost`. -/
def createPostRoute (s : PostStore) (callerId : Nat) (title content : String) :
    HttpResponse × PostStore :=
  postController.createPost s callerId title content

/-- The frontend zod `postSchema` (`frontend/src/validations/postSchemas.js`):
title between 3 and 200 characters, content non-empty and at least 10
characters once HTML tags are stripped and whitespace trimmed. -/
def postSchemaAccepts (title content : String) : Bool :=
  1 ≤ title.length && 3 ≤ title.length && title.length ≤ 200 &&
  1 ≤ content.length && 10 ≤ (trimStr (stripTagsStr content)).length

/-- The creation-time invariant the spec states for the credential store: no
two stored users share an email. -/
def emailsUnique (s : UserStore) : Prop :=
  s.users.Pairwise fun u v => ¬ u.email = v.email

/-- Decide email uniqueness by scanning the list. -/
def decEmailsPairwise :
    (l : List UserDoc) → Decidable (List.Pairwise (fun u v => ¬ u.email = v.email) l)
  | [] => Decidable.isTrue List.Pairwise.nil
  | _u :: us =>
    haveI := decEmailsPairwise us
    decidable_of_iff _ List.pairwise_cons.symm

instance (s : UserStore) : Decidable (emailsUnique s) :=
  decEmailsPairwise s.users

/-- Run a sequence of `register` requests (name, email, password) against the
store, keeping whatever store each call leaves behind. -/
def runRegisters (s : UserStore) : List (String × String × String) → UserStore
  | [] => s
  | (n, e, p) :: rest => runRegisters (authService.register s n e p).2 rest

/-- Two user documents that agree on everything a caller may see, differing
at most in the stored password hash. -/
def sameExceptHash (u v : UserDoc) : Prop :=
  u.id = v.id ∧ u.name = v.name ∧ u.email = v.email

/-- Fixture: a registered user. -/
def exAlice : UserDoc := ⟨1, "Alice", "alice@example.com", hashPassword "alicepw"⟩

/-- Fixture: a second registered user. -/
def exBob : UserDoc := ⟨2, "Bob", "bob@example.com", hashPassword "bobpw"⟩

/-- Fixture: a user store holding Alice and Bob. -/
def exUserStore : UserStore := ⟨[exAlice, exBob], 3⟩

/-- Fixture: Alice's document with a different stored hash and the same
outward fields. -/
def exAliceOtherHash : UserDoc := ⟨1, "Alice", "alice@example.com", hashPassword "other"⟩

/-- Fixture: the users collection of `exUserStore`. -/
def exUsers : List UserDoc := [exAlice, exBob]

/-- Fixture: the same collection with Alice's stored hash replaced. -/
def exUsersAlt : List UserDoc := [exAliceOtherHash, exBob]

/-- Fixture: a post owned by Alice (user 1). -/
def exPost : PostDoc := ⟨0, "Hello", "World", 1, 0, 0⟩

/-- Fixture: a post store holding only `exPost`, with the clock past its
timestamps and no reads issued yet. -/
def exPostStore : PostStore := ⟨[exPost], 1, 1, 0⟩

/-! ## Helper lemmas -/

theorem findUserByEmail_eq_some {us : List UserDoc} {e : String} {u : UserDoc}
    (h : findUserByEmail us e = some u) : u ∈ us ∧ u.email = e := by
  induction us with
  | nil => simp [findUserByEmail] at h
  | cons v vs ih =>
    by_cases hv : v.email = e
    · simp [findUserByEmail, hv] at h
      subst h
      exact ⟨List.mem_cons_self _ _, hv⟩
    · simp [findUserByEmail, hv] at h
      rcases ih h with ⟨hm, he⟩
      exact ⟨List.mem_cons_of_mem _ hm, he⟩

theorem findUserByEmail_eq_none {us : List UserDoc} {e : String}
    (h : findUserByEmail us e = none) : ∀ u ∈ us, ¬ u.email = e := by
  induction us with
  | nil => intro u hu; simp at hu
  | cons v vs ih =>
    by_cases hv : v.email = e
    · simp [findUserByEmail, hv] at h
    · simp [findUserByEmail, hv] at h
      intro u hu
      rcases List.mem_cons.mp hu with rfl | hu'
      · exact hv
      · exact ih h u hu'

theorem forall₂_map_self {α β : Type} {P : α → β → Prop} (g : α → β) :
    ∀ {l : List α}, (∀ q ∈ l, P q (g q)) → List.Forall₂ P l (l.map g)
  | [], _ => List.Forall₂.nil
  | q :: _qs, h =>
    List.Forall₂.cons (h q (List.mem_cons_self _ _))
      (forall₂_map_self g fun r hr => h r (List.mem_cons_of_mem _ hr))

/-! ## Claims -/

/-- C1: for a post owned by `A` and an authenticated caller `B ≠ A`, the
`PUT /posts/:id` and `DELETE /posts/:id` pipelines answer 403 through the
ownership guard and leave the posts collection untouched; for caller `A` the
guard passes the loaded post through, and the operation proceeds (an owner
delete answers 200). -/
theorem ownership_guard_blocks_non_owner
    (s : PostStore) (pid A B : Nat) (p : PostDoc) (title content : String)
    (hfind : findPost s.posts pid = some p)
    (hA : p.authorId = A) (hBA : ¬ B = A) :
    (putPostRoute s pid B title content).1.status = 403 ∧
    (putPostRoute s pid B title content).2.posts = s.posts ∧
    (deletePostRoute s pid B).1.status = 403 ∧
    (deletePostRoute s pid B).2.posts = s.posts ∧
    (authorize s pid A).1 = GateResult.pass p ∧
    (deletePostRoute s pid A).1.status = 200 := by
  have hne : ¬ p.authorId = B := by
    rw [hA]; exact fun h => hBA h.symm
  have hauthB :
      authorize s pid B = (GateResult.forbidden, { s with fetchCount := s.fetchCount + 1 }) := by
    simp [authorize, findPostById, hfind, hne]
  have hauthA :
      authorize s pid A = (GateResult.pass p, { s with fetchCount := s.fetchCount + 1 }) := by
    simp [authorize, findPostById, hfind, hA]
  refine ⟨?_, ?_, ?_, ?_, ?_, ?_⟩
  · simp [putPostRoute, hauthB]
  · simp [putPostRoute, hauthB]
  · simp [deletePostRoute, hauthB]
  · simp [deletePostRoute, hauthB]
  · simp [hauthA]
  · simp [deletePostRoute, hauthA, postController.deletePost, postService.deletePost,
      findPostById, hfind]

/-- Witness for C1 at the fixture store: Bob (2) is refused with 403 on
Alice's post and nothing is deleted; Alice (1) passes the gate and her
delete answers 200. -/
theorem ownership_guard_blocks_non_owner_witness :
    (putPostRoute exPostStore 0 2 "t" "c").1.status = 403 ∧
    (putPostRoute exPostStore 0 2 "t" "c").2.posts = exPostStore.posts ∧
    (deletePostRoute exPostStore 0 2).1.status = 403 ∧
    (deletePostRoute exPostStore 0 2).2.posts = exPostStore.posts ∧
    (authorize exPostStore 0 1).1 = GateResult.pass exPost ∧
    (deletePostRoute exPostStore 0 1).1.status = 200 :=
  ownership_guard_blocks_non_owner exPostStore 0 1 2 exPost "t" "c"
    (by decide) (by decide) (by decide)

/-- C2: when no post with the requested id exists, `authorize` answers
NotFound for every caller identity — the outcome (result and store) is a
function of the id alone, so owners and non-owners are indistinguishable —
and the mutating routes answer 404 `Post not found`. -/
theorem missing_resource_uniform_notfound
    (s : PostStore) (pid : Nat) (hmiss : findPost s.posts pid = none) :
    (∀ caller : Nat,
      authorize s pid caller =
        (GateResult.notFound, { s with fetchCount := s.fetchCount + 1 })) ∧
    (∀ c1 c2 : Nat, authorize s pid c1 = authorize s pid c2) ∧
    (∀ (caller : Nat) (title content : String),
      (putPostRoute s pid caller title content).1 = ⟨404, false, some "Post not found"⟩) ∧
    (∀ caller : Nat,
      (deletePostRoute s pid caller).1 = ⟨404, false, some "Post not found"⟩) := by
  have hauth : ∀ caller : Nat,
      authorize s pid caller =
        (GateResult.notFound, { s with fetchCount := s.fetchCount + 1 }) := by
    intro caller
    simp [authorize, findPostById, hmiss]
  refine ⟨hauth, ?_, ?_, ?_⟩
  · intro c1 c2; rw [hauth c1, hauth c2]
  · intro caller title content
    simp [putPostRoute, hauth caller]
  · intro caller
    simp [deletePostRoute, hauth caller]

/-- Witness for C2: id 99 does not exist in the fixture store; owner and
non-owner callers get the same NotFound outcome, and the routes answer
404. -/
theorem missing_resource_uniform_notfound_witness :
    authorize exPostStore 99 1 =
      (GateResult.notFound, { exPostStore with fetchCount := exPostStore.fetchCount + 1 }) ∧
    authorize exPostStore 99 1 = authorize exPostStore 99 2 ∧
    (putPostRoute exPostStore 99 1 "t" "c").1 = ⟨404, false, some "Post not found"⟩ ∧
    (deletePostRoute exPostStore 99 2).1 = ⟨404, false, some "Post not found"⟩ := by
  have h := missing_resource_uniform_notfound exPostStore 99 (by decide)
  exact ⟨h.1 1, h.2.1 1 2, h.2.2.1 1 "t" "c", h.2.2.2 2⟩

/-- C3: whenever the supplied credentials do not match a stored user — the
email is unknown, or it is known and the password fails `comparePassword` —
`login` throws the one literal message `'Invalid credentials'` and the
HTTP outcome is the same 401 response, so a caller cannot tell whether the
email is registered. -/
theorem login_failure_uniform
    (s : UserStore) (email pw : String)
    (hfail : ∀ u ∈ s.users, u.email = email → comparePassword pw u.passwordHash = false) :
    authService.login s email pw = Except.error "Invalid credentials" ∧
    loginController (authService.login s email pw) =
      ⟨401, false, some "Invalid credentials"⟩ := by
  have hlogin : authService.login s email pw = Except.error "Invalid credentials" := by
    cases hfind : findUserByEmail s.users email with
    | none => simp [authService.login, hfind]
    | some u =>
      rcases findUserByEmail_eq_some hfind with ⟨hm, he⟩
      simp [authService.login, hfind, hfail u hm he]
  exact ⟨hlogin, by rw [hlogin]; rfl⟩

/-- Witness for C3, covering both failure modes at the fixture store: an
unregistered email and a registered email with a wrong password produce the
identical error and the identical 401 response. -/
theorem login_failure_uniform_witness :
    (authService.login exUserStore "mallory@example.com" "alicepw" =
        Except.error "Invalid credentials" ∧
      loginController (authService.login exUserStore "mallory@example.com" "alicepw") =
        ⟨401, false, some "Invalid credentials"⟩) ∧
    (authService.login exUserStore "alice@example.com" "wrongpw" =
        Except.error "Invalid credentials" ∧
      loginController (authService.login exUserStore "alice@example.com" "wrongpw") =
        ⟨401, false, some "Invalid credentials"⟩) :=
  ⟨login_failure_uniform exUserStore "mallory@example.com" "alicepw" (by decide),
   login_failure_uniform exUserStore "alice@example.com" "wrongpw" (by decide)⟩

/-- One `register` call keeps stored emails pairwise distinct: a duplicate
leaves the store untouched, a fresh email is appended with an email no
stored user carries. -/
theorem register_preserves_emailsUnique (s : UserStore) (n e p : String)
    (h : emailsUnique s) : emailsUnique ((authService.register s n e p).2) := by
  cases hfind : findUserByEmail s.users e with
  | some u => simpa [authService.register, hfind] using h
  | none =>
    have hnew : ∀ u ∈ s.users, ¬ u.email = e := findUserByEmail_eq_none hfind
    simp only [emailsUnique, authService.register, hfind] at h ⊢
    rw [List.pairwise_append]
    refine ⟨h, List.pairwise_singleton _ _, ?_⟩
    intro a ha b hb
    simp only [List.mem_singleton] at hb
    subst hb
    exact hnew a ha

/-- C4: a registration under an email that already exists fails with the
duplicate-email error (HTTP 400, not an internal 500) and creates no user;
consequently every sequence of `register` calls preserves the invariant that
no two stored users share an email. -/
theorem register_duplicate_email_rejected
    (s : UserStore) (n e pw : String) (u : UserDoc)
    (hdup : findUserByEmail s.users e = some u) :
    (authService.register s n e pw).1 =
      Except.error "User already exists with this email" ∧
    (authService.register s n e pw).2 = s ∧
    (registerController (authService.register s n e pw).1).status = 400 ∧
    ¬ (registerController (authService.register s n e pw).1).status = 500 ∧
    (∀ (s0 : UserStore) (reqs : List (String × String × String)),
      emailsUnique s0 → emailsUnique (runRegisters s0 reqs)) := by
  refine ⟨?_, ?_, ?_, ?_, ?_⟩
  · simp [authService.register, hdup]
  · simp [authService.register, hdup]
  · simp [authService.register, hdup, registerController]
  · simp [authService.register, hdup, registerController]
  · intro s0 reqs h
    induction reqs generalizing s0 with
    | nil => exact h
    | cons r rest ih =>
      obtain ⟨n', e', p'⟩ := r
      simp only [runRegisters]
      exact ih _ (register_preserves_emailsUnique s0 n' e' p' h)

/-- Witness for C4: re-registering Alice's email is rejected with the
duplicate error and a 400, Bob is still the last user, and a concrete
request sequence containing its own duplicate still leaves emails unique. -/
theorem register_duplicate_email_rejected_witness :
    (authService.register exUserStore "Eve" "alice@example.com" "evepw").1 =
      Except.error "User already exists with this email" ∧
    (authService.register exUserStore "Eve" "alice@example.com" "evepw").2 = exUserStore ∧
    (registerController
      (authService.register exUserStore "Eve" "alice@example.com" "evepw").1).status = 400 ∧
    ¬ (registerController
      (authService.register exUserStore "Eve" "alice@example.com" "evepw").1).status = 500 ∧
    emailsUnique (runRegisters exUserStore
      [("Carol", "carol@example.com", "cpw"), ("Dan", "carol@example.com", "dpw")]) := by
  have h := register_duplicate_email_rejected exUserStore "Eve" "alice@example.com" "evepw"
    exAlice (by decide)
  exact ⟨h.1, h.2.1, h.2.2.1, h.2.2.2.1,
    h.2.2.2.2 exUserStore
      [("Carol", "carol@example.com", "cpw"), ("Dan", "carol@example.com", "dpw")]
      (by decide)⟩

/-- Successful schema validation returns the trimmed title and the content
unchanged, and certifies that neither was rejected. -/
theorem validatePostFields_ok {t c a b : String}
    (h : validatePostFields t c = Except.ok (a, b)) :
    a = trimStr t ∧ b = c ∧ ¬ trimStr t = "" ∧ ¬ c = "" := by
  by_cases h1 : trimStr t = ""
  · simp [validatePostFields, h1] at h
  · by_cases h2 : c = ""
    · simp [validatePostFields, h1, h2] at h
    · simp [validatePostFields, h1, h2] at h
      exact ⟨h.1.symm, h.2.symm, h1, h2⟩

/-- When neither field is rejected, validation succeeds with the trimmed
title. -/
theorem validatePostFields_ok_of {t c : String}
    (ht : ¬ trimStr t = "") (hc : ¬ c = "") :
    validatePostFields t c = Except.ok (trimStr t, c) := by
  simp [validatePostFields, ht, hc]

/-- Resolving an author through users that differ only in stored hashes
yields the same `{name, email}` view. -/
theorem findUserById_view_hashIndependent {us us' : List UserDoc}
    (h : List.Forall₂ sameExceptHash us us') (uid : Nat) :
    Option.map (fun u => AuthorView.mk u.name u.email) (findUserById us uid) =
    Option.map (fun u => AuthorView.mk u.name u.email) (findUserById us' uid) := by
  induction h with
  | nil => rfl
  | @cons a b l1 l2 hab htl ih =>
    obtain ⟨hid, hn, he⟩ := hab
    by_cases hu : a.id = uid
    · have hu' : b.id = uid := hid ▸ hu
      simp [findUserById, hu, hu', hn, he]
    · have hu' : ¬ b.id = uid := hid ▸ hu
      simpa [findUserById, hu, hu'] using ih

/-- Population is independent of the stored password hashes. -/
theorem populatePost_hashIndependent {us us' : List UserDoc}
    (h : List.Forall₂ sameExceptHash us us') (p : PostDoc) :
    populatePost us p = populatePost us' p := by
  unfold populatePost
  rw [show (findUserById us p.authorId).map (fun u => AuthorView.mk u.name u.email) =
      (findUserById us' p.authorId).map (fun u => AuthorView.mk u.name u.email) from
    findUserById_view_hashIndependent h p.authorId]

/-- C6: no outward value carries the stored password hash.  A successful
`register` returns exactly `{id, name, email, token}` built from the fresh
id and the submitted name/email; a successful `login` returns exactly
`{id, name, email, token}` of the matched user; and the list/get responses
are unchanged when every stored hash is replaced, their author views being
only `{name, email}`. -/
theorem password_hash_never_serialized
    (us us' : List UserDoc) (s : PostStore) (st : UserStore) (n e pw : String)
    (hrel : List.Forall₂ sameExceptHash us us') :
    (∀ d s2, authService.register st n e pw = (Except.ok d, s2) →
      d = ⟨st.nextId, n, e, generateToken st.nextId⟩) ∧
    (∀ d, authService.login st e pw = Except.ok d →
      ∃ u, findUserByEmail st.users e = some u ∧
        d = ⟨u.id, u.name, u.email, generateToken u.id⟩) ∧
    postService.getAllPosts us s = postService.getAllPosts us' s ∧
    (∀ pid, (postService.getPostById us s pid).1 = (postService.getPostById us' s pid).1) := by
  have hpop : ∀ p, populatePost us p = populatePost us' p :=
    populatePost_hashIndependent hrel
  refine ⟨?_, ?_, ?_, ?_⟩
  · intro d s2 hreg
    cases hfind : findUserByEmail st.users e with
    | some u =>
      unfold authService.register at hreg
      rw [hfind] at hreg
      simp [Prod.ext_iff] at hreg
    | none =>
      unfold authService.register at hreg
      rw [hfind] at hreg
      simp only [Prod.mk.injEq, Except.ok.injEq] at hreg
      exact hreg.1.symm
  · intro d hlog
    cases hfind : findUserByEmail st.users e with
    | none =>
      unfold authService.login at hlog
      rw [hfind] at hlog
      simp at hlog
    | some u =>
      unfold authService.login at hlog
      rw [hfind] at hlog
      dsimp only at hlog
      by_cases hcmp : comparePassword pw u.passwordHash = true
      · rw [if_pos hcmp] at hlog
        simp only [Except.ok.injEq] at hlog
        exact ⟨u, rfl, hlog.symm⟩
      · rw [if_neg hcmp] at hlog
        simp at hlog
  · unfold postService.getAllPosts
    rw [show populatePost us = populatePost us' from funext hpop]
  · intro pid
    unfold postService.getPostById
    cases hf : findPost s.posts pid with
    | none => simp [findPostById, hf]
    | some p => simp [findPostById, hf, hpop p]

/-- Witness for C6: replacing Alice's stored hash leaves the populated list
unchanged; a concrete successful registration and a concrete successful
login return exactly the four public fields. -/
theorem password_hash_never_serialized_witness :
    postService.getAllPosts exUsers exPostStore =
      postService.getAllPosts exUsersAlt exPostStore ∧
    (⟨3, "Carol", "carol@example.com", generateToken 3⟩ : AuthData) =
      ⟨exUserStore.nextId, "Carol", "carol@example.com", generateToken exUserStore.nextId⟩ ∧
    (∃ u, findUserByEmail exUserStore.users "alice@example.com" = some u ∧
      (⟨1, "Alice", "alice@example.com", generateToken 1⟩ : AuthData) =
        ⟨u.id, u.name, u.email, generateToken u.id⟩) := by
  have hrel : List.Forall₂ sameExceptHash exUsers exUsersAlt := by
    refine List.Forall₂.cons ?_ (List.Forall₂.cons ?_ List.Forall₂.nil) <;>
      exact ⟨rfl, rfl, rfl⟩
  have h1 := password_hash_never_serialized exUsers exUsersAlt exPostStore exUserStore
    "Carol" "carol@example.com" "cpw" hrel
  have h2 := password_hash_never_serialized exUsers exUsersAlt exPostStore exUserStore
    "Alice" "alice@example.com" "alicepw" hrel
  refine ⟨h1.2.2.1, ?_, ?_⟩
  · exact h1.1 ⟨3, "Carol", "carol@example.com", generateToken 3⟩
      ⟨[exAlice, exBob, ⟨3, "Carol", "carol@example.com", hashPassword "cpw"⟩], 4⟩ rfl
  · exact h2.2.1 ⟨1, "Alice", "alice@example.com", generateToken 1⟩ rfl

/-- A sorted (newest-first) rearrangement beginning of a list whose
distinguished member strictly dominates every other element starts with that
member. -/
theorem head_sortPostsDesc {l : List PostDoc} {p : PostDoc}
    (hin : p ∈ l) (hmax : ∀ q ∈ l, q = p ∨ q.createdAt < p.createdAt) :
    (sortPostsDesc l).head? = some p := by
  have hperm : (sortPostsDesc l).Perm l := List.perm_insertionSort createdDesc l
  have hsorted : List.Sorted createdDesc (sortPostsDesc l) :=
    List.sorted_insertionSort createdDesc l
  have hin' : p ∈ sortPostsDesc l := hperm.mem_iff.mpr hin
  cases hs : sortPostsDesc l with
  | nil => rw [hs] at hin'; simp at hin'
  | cons h tl =>
    rw [hs] at hin' hsorted hperm
    have hh : h ∈ l := hperm.subset (List.mem_cons_self h tl)
    rcases hmax h hh with rfl | hlt
    · rfl
    · rcases List.mem_cons.mp hin' with rfl | hptl
      · exact absurd hlt (lt_irrefl _)
      · have hle : createdDesc h p := List.rel_of_sorted_cons hsorted p hptl
        exact absurd (Nat.lt_of_lt_of_le hlt hle) (lt_irrefl _)

/-- C9: `getAllPosts` returns the whole collection newest-first — adjacent
returned posts have non-increasing creation timestamps, every stored post
appears in the result — and after a successful `createPost` (on a store
whose clock is past every stored timestamp, as maintained by the service)
the new post is at the front of the next listing. -/
theorem list_newest_first
    (users : List UserDoc) (s : PostStore) (title content : String) (aid : Nat)
    (p' : PostDoc) (s' : PostStore)
    (hcreate : postService.createPost s title content aid = (Except.ok p', s'))
    (hinv : ∀ q ∈ s.posts, q.createdAt < s.now) :
    List.Chain' (fun a b : PopulatedPost => b.createdAt ≤ a.createdAt)
      (postService.getAllPosts users s) ∧
    (∀ q ∈ s.posts, populatePost users q ∈ postService.getAllPosts users s) ∧
    (postService.getAllPosts users s').head? = some (populatePost users p') := by
  refine ⟨?_, ?_, ?_⟩
  · have hsorted := List.sorted_insertionSort createdDesc s.posts
    have hpw : List.Pairwise
        (fun a b : PostDoc =>
          (populatePost users b).createdAt ≤ (populatePost users a).createdAt)
        (sortPostsDesc s.posts) :=
      hsorted.imp fun h => h
    exact (List.pairwise_map.mpr hpw).chain'
  · intro q hq
    exact List.mem_map_of_mem (populatePost users)
      ((List.perm_insertionSort createdDesc s.posts).mem_iff.mpr hq)
  · cases hv : validatePostFields title content with
    | error m =>
      unfold postService.createPost at hcreate
      rw [hv] at hcreate
      simp [Prod.ext_iff] at hcreate
    | ok tc =>
      obtain ⟨a, b⟩ := tc
      unfold postService.createPost at hcreate
      rw [hv] at hcreate
      simp only [Prod.mk.injEq, Except.ok.injEq] at hcreate
      obtain ⟨hp, hs⟩ := hcreate
      subst hp
      subst hs
      have hhead : (sortPostsDesc (s.posts ++ [⟨s.nextId, a, b, aid, s.now, s.now⟩])).head? =
          some ⟨s.nextId, a, b, aid, s.now, s.now⟩ := by
        apply head_sortPostsDesc
        · exact List.mem_append_right _ (List.mem_singleton.mpr rfl)
        · intro q hq
          rcases List.mem_append.mp hq with hql | hqr
          · exact Or.inr (hinv q hql)
          · exact Or.inl (List.mem_singleton.mp hqr)
      unfold postService.getAllPosts
      cases hs2 : sortPostsDesc (s.posts ++ [⟨s.nextId, a, b, aid, s.now, s.now⟩]) with
      | nil => rw [hs2] at hhead; simp at hhead
      | cons h tl =>
        rw [hs2] at hhead
        simp only [List.head?_cons, Option.some.injEq] at hhead
        subst hhead
        simp

/-- Witness for C9 at the fixture store: creating a second post succeeds and
the next listing is newest-first with the new post in front. -/
theorem list_newest_first_witness :
    List.Chain' (fun a b : PopulatedPost => b.createdAt ≤ a.createdAt)
      (postService.getAllPosts exUsers exPostStore) ∧
    (∀ q ∈ exPostStore.posts,
      populatePost exUsers q ∈ postService.getAllPosts exUsers exPostStore) ∧
    (postService.getAllPosts exUsers
      (⟨[exPost, ⟨1, "Second", "More", 2, 1, 1⟩], 2, 2, 0⟩ : PostStore)).head? =
      some (populatePost exUsers ⟨1, "Second", "More", 2, 1, 1⟩) :=
  list_newest_first exUsers exPostStore "Second" "More" 2
    ⟨1, "Second", "More", 2, 1, 1⟩ ⟨[exPost, ⟨1, "Second", "More", 2, 1, 1⟩], 2, 2, 0⟩
    rfl (by decide)

/-- Counterexample to C7: the backend create pipeline accepts a content that
is empty after tag-stripping and trimming — `"<p></p>"` and `"   "` both
pass the truthiness check and the mongoose validators (content has no
`trim`), answering 201, so 400-rejection is not equivalent to
emptiness-after-trimming-and-stripping. -/
theorem create_tag_stripping_not_enforced :
    ¬ (((createPostRoute exPostStore 1 "Hi!" "<p></p>").1.status = 400) ↔
        (trimStr (stripTagsStr "Hi!") = "" ∨ trimStr (stripTagsStr "<p></p>") = "")) ∧
    (createPostRoute exPostStore 1 "Hi!" "<p></p>").1.status = 201 ∧
    trimStr (stripTagsStr "<p></p>") = "" ∧
    (createPostRoute exPostStore 1 "Hi!" "   ").1.status = 201 ∧
    trimStr (stripTagsStr "   ") = "" := by decide

/-- C7 as amended: the backend create pipeline rejects with 400 exactly when
the title trims to the empty string or the content is the empty string
(controller truthiness check plus mongoose `trim` + `required`), and
answers 201 otherwise; no tag-stripping is applied server-side (the
stripping sits in the client-side zod schema only). -/
theorem create_rejects_iff_trimmedTitle_or_content_empty
    (s : PostStore) (caller : Nat) (title content : String) :
    ((createPostRoute s caller title content).1.status = 400 ↔
      (trimStr title = "" ∨ content = "")) ∧
    ((createPostRoute s caller title content).1.status = 201 ↔
      ¬ (trimStr title = "" ∨ content = "")) := by
  unfold createPostRoute postController.createPost
  by_cases ht : title = ""
  · subst ht
    simp [show trimStr "" = "" from rfl]
  · by_cases hc : content = ""
    · simp [hc]
    · by_cases htr : trimStr title = ""
      · simp [ht, hc, postService.createPost, validatePostFields, htr]
      · simp [ht, hc, postService.createPost, validatePostFields, htr]

/-- Counterexample to C8: on the fixture store (no reads issued yet), an
authorized owner update passes the guard — which already loaded the post —
yet completes with two single-document fetches, not one: the controller
calls the service with the path id and `findByIdAndUpdate` re-reads the
document instead of using the post the guard attached. -/
theorem authorized_update_fetches_twice_cex :
    (authorize exPostStore 0 1).1 = GateResult.pass exPost ∧
    (putPostRoute exPostStore 0 1 "Title2" "Content2").1.status = 200 ∧
    (putPostRoute exPostStore 0 1 "Title2" "Content2").2.fetchCount = 2 ∧
    ¬ (putPostRoute exPostStore 0 1 "Title2" "Content2").2.fetchCount =
        exPostStore.fetchCount + 1 := by decide

/-- C8 as amended: the guard does pass the loaded post downstream
(`req.post`), but the update/delete handlers ignore it and re-fetch through
the service by id, so every authorized mutating request that reaches the
store issues exactly two single-document fetches. -/
theorem authorized_mutation_double_fetch
    (s : PostStore) (pid caller : Nat) (p : PostDoc) (t c : String)
    (hfind : findPost s.posts pid = some p) (hown : p.authorId = caller)
    (ht : ¬ trimStr t = "") (hc : ¬ c = "") :
    (authorize s pid caller).1 = GateResult.pass p ∧
    (putPostRoute s pid caller t c).1.status = 200 ∧
    (putPostRoute s pid caller t c).2.fetchCount = s.fetchCount + 2 ∧
    (deletePostRoute s pid caller).2.fetchCount = s.fetchCount + 2 := by
  have htne : ¬ t = "" := fun h => ht (by rw [h]; rfl)
  have hauth : authorize s pid caller =
      (GateResult.pass p, { s with fetchCount := s.fetchCount + 1 }) := by
    simp [authorize, findPostById, hfind, hown]
  have hroute : putPostRoute s pid caller t c =
      postController.updatePost { s with fetchCount := s.fetchCount + 1 } pid t c := by
    simp [putPostRoute, hauth]
  refine ⟨by simp [hauth], ?_, ?_, ?_⟩
  · rw [hroute]
    simp [postController.updatePost, htne, hc, postService.updatePost,
      validatePostFields_ok_of ht hc, findPostById, hfind]
  · rw [hroute]
    simp [postController.updatePost, htne, hc, postService.updatePost,
      validatePostFields_ok_of ht hc, findPostById, hfind]
  · simp [deletePostRoute, hauth, postController.deletePost, postService.deletePost,
      findPostById, hfind]

/-- Witness for the amended C8 at the fixture store. -/
theorem authorized_mutation_double_fetch_witness :
    (authorize exPostStore 0 1).1 = GateResult.pass exPost ∧
    (putPostRoute exPostStore 0 1 "T" "C").1.status = 200 ∧
    (putPostRoute exPostStore 0 1 "T" "C").2.fetchCount = exPostStore.fetchCount + 2 ∧
    (deletePostRoute exPostStore 0 1).2.fetchCount = exPostStore.fetchCount + 2 :=
  authorized_mutation_double_fetch exPostStore 0 1 exPost "T" "C"
    (by decide) (by decide) (by decide) (by decide)

/-- C5: a successful `postService.updatePost` rewrites only `title`,
`content` and `updatedAt` of the addressed post — its `id`, `authorId` and
`createdAt` are what they were — and every other stored post is untouched.
The owning identity is not an input: the service receives only the id,
title and content. -/
theorem update_changes_only_title_content
    (s : PostStore) (pid : Nat) (t c : String) (p' : PostDoc) (s' : PostStore)
    (h : postService.updatePost s pid t c = (Except.ok p', s')) :
    ∃ p, findPost s.posts pid = some p ∧
      p'.id = p.id ∧ p'.authorId = p.authorId ∧ p'.createdAt = p.createdAt ∧
      p'.title = trimStr t ∧ p'.content = c ∧ p'.updatedAt = s.now ∧
      List.Forall₂ (fun q q' =>
        q'.id = q.id ∧ q'.authorId = q.authorId ∧ q'.createdAt = q.createdAt ∧
        (¬ q.id = pid → q' = q) ∧
        (q.id = pid → q'.title = trimStr t ∧ q'.content = c ∧ q'.updatedAt = s.now))
        s.posts s'.posts := by
  cases hv : validatePostFields t c with
  | error m =>
    unfold postService.updatePost at h
    rw [hv] at h
    simp [Prod.ext_iff] at h
  | ok tc =>
    obtain ⟨a, b⟩ := tc
    obtain ⟨ha, hb, hne, hcne⟩ := validatePostFields_ok hv
    subst ha
    subst hb
    cases hf : findPost s.posts pid with
    | none =>
      unfold postService.updatePost at h
      rw [hv] at h
      simp [findPostById, hf, Prod.ext_iff] at h
    | some p =>
      unfold postService.updatePost at h
      rw [hv] at h
      simp only [findPostById, hf, Prod.mk.injEq, Except.ok.injEq] at h
      obtain ⟨hp, hs⟩ := h
      subst hp
      subst hs
      refine ⟨p, rfl, rfl, rfl, rfl, rfl, rfl, rfl, ?_⟩
      apply forall₂_map_self
      intro q hq
      by_cases hid : q.id = pid <;> simp [hid]

/-- Witness for C5: updating the fixture post trims the title, keeps id,
author and creation time, and rewrites the single stored post in place. -/
theorem update_changes_only_title_content_witness :
    ∃ p, findPost exPostStore.posts 0 = some p ∧
      (⟨0, "New", "Body", 1, 0, 1⟩ : PostDoc).id = p.id ∧
      (⟨0, "New", "Body", 1, 0, 1⟩ : PostDoc).authorId = p.authorId ∧
      (⟨0, "New", "Body", 1, 0, 1⟩ : PostDoc).createdAt = p.createdAt ∧
      (⟨0, "New", "Body", 1, 0, 1⟩ : PostDoc).title = trimStr " New " ∧
      (⟨0, "New", "Body", 1, 0, 1⟩ : PostDoc).content = "Body" ∧
      (⟨0, "New", "Body", 1, 0, 1⟩ : PostDoc).updatedAt = exPostStore.now ∧
      List.Forall₂ (fun q q' =>
        q'.id = q.id ∧ q'.authorId = q.authorId ∧ q'.createdAt = q.createdAt ∧
        (¬ q.id = 0 → q' = q) ∧
        (q.id = 0 → q'.title = trimStr " New " ∧ q'.content = "Body" ∧
          q'.updatedAt = exPostStore.now))
        exPostStore.posts (⟨[⟨0, "New", "Body", 1, 0, 1⟩], 1, 2, 1⟩ : PostStore).posts :=
  update_changes_only_title_content exPostStore 0 " New " "Body"
    ⟨0, "New", "Body", 1, 0, 1⟩ ⟨[⟨0, "New", "Body", 1, 0, 1⟩], 1, 2, 1⟩ rfl

/-- C10: once title and content pass the controller's truthiness check,
every error the post service throws is answered with 404 (the controller's
catch block), never 400 — and concretely, an owner-authorized update of the
existing fixture post with the whitespace-only title `"   "` is answered
404 even though the post exists and the caller owns it. -/
theorem update_service_failures_map_to_404
    (s : PostStore) (pid : Nat) (t c m : String)
    (hT : ¬ t = "") (hC : ¬ c = "")
    (herr : (postService.updatePost s pid t c).1 = Except.error m) :
    (postController.updatePost s pid t c).1.status = 404 ∧
    ¬ (postController.updatePost s pid t c).1.status = 400 ∧
    (putPostRoute exPostStore 0 1 "   " "x").1.status = 404 ∧
    findPost exPostStore.posts 0 = some exPost ∧
    exPost.authorId = 1 := by
  have hcond : ¬ (t = "" ∨ c = "") := by
    intro hor
    rcases hor with h | h
    · exact hT h
    · exact hC h
  cases hu : postService.updatePost s pid t c with
  | mk r s2 =>
    rw [hu] at herr
    dsimp only at herr
    subst herr
    refine ⟨?_, ?_, ?_, ?_, ?_⟩
    · simp [postController.updatePost, hcond, hu]
    · simp [postController.updatePost, hcond, hu]
    · decide
    · decide
    · decide

/-- Witness for C10 at the fixture store: the whitespace-only title passes
the truthiness check, fails mongoose validation inside the service, and the
controller answers 404. -/
theorem update_service_failures_map_to_404_witness :
    (postController.updatePost exPostStore 0 "   " "x").1.status = 404 ∧
    ¬ (postController.updatePost exPostStore 0 "   " "x").1.status = 400 ∧
    (putPostRoute exPostStore 0 1 "   " "x").1.status = 404 ∧
    findPost exPostStore.posts 0 = some exPost ∧
    exPost.authorId = 1 :=
  update_service_failures_map_to_404 exPostStore 0 "   " "x" "Please provide a title"
    (by decide) (by decide) rfl
